import Mathlib

/-!
Shallow embedding of `ploidy.c` (bcftools): the region-annotated ploidy
table, its line parser, the two constructors and the point-query reduction.

Conventions of the embedding:
* C strings are `List Char`; the zero terminator is the end of the list.
* C `int` values are unbounded `Int` except where the code uses the literal
  `INT_MAX` sentinel, which is kept as the literal `2147483647`.
* The external collaborators of the module (htslib `regidx`, `khash_str2int`),
  which the spec treats as black boxes, are modelled at their contract level:
  `regidx_parse_tab` accepts `<chrom> <start> <end>` with the coordinates kept
  in the external convention exactly as parsed (inclusive on both ends);
  the interval index stores records in insertion order and an overlap query
  returns every stored record of the chromosome containing the point, in that
  order; `khash_str2int` assigns dense ids 0,1,2,... in registration order,
  so the map is recovered by position lookup in the `id2sex` array.
* `error(...)` prints a message and terminates the process; it is modelled by
  a distinguished `fatal`/`aborted` outcome carrying no state.
-/

set_option linter.unusedVariables false

/-- C `isspace` on the characters that can occur in a Lean `Char`:
space, tab, line feed, vertical tab, form feed, carriage return. -/
def isspace (c : Char) : Bool :=
  c = ' ' || c = '\t' || c = '\n' || c = '\x0b' || c = '\x0c' || c = '\r'

/-- Negation of `isspace`, the token-character test of the scanning loops. -/
def notspace (c : Char) : Bool := !(isspace c)

/-- Payload attached to every stored region: `sex_ploidy_t` (sex id, ploidy). -/
structure sex_ploidy_t where
  sex : Nat
  ploidy : Int
deriving DecidableEq, Repr

/-- One stored entry of the external interval index: the chromosome name and
coordinates produced by the external tabular parser (`stop` stands for the C
field `end`, a Lean keyword) plus the parsed payload. -/
structure RegEntry where
  chr : List Char
  start : Int
  stop : Int
  payload : sex_ploidy_t
deriving DecidableEq, Repr

/-- C `struct _ploidy_t`. `nsex` is `id2sex.length`; `msex` and `tmp_str` are
allocation scratch with no observable content; the `idx` handle is represented
by `regs`, the stored index entries in insertion order; the `sex2id` hash is
recovered from `id2sex` because khash ids are assigned densely in registration
order (see `khash_str2int_get`). -/
structure ploidy_t where
  dflt : Int
  min : Int
  max : Int
  id2sex : List (List Char)
  regs : List RegEntry
deriving DecidableEq, Repr

/-- State both constructors build before inserting records: `calloc` zeroing
followed by `pld->dflt = pld->min = pld->max = dflt` (lines 99 and 115). -/
def initPloidy (dflt : Int) : ploidy_t := ⟨dflt, dflt, dflt, [], []⟩

/-- Model of the external `khash_str2int_get`: since `khash_str2int_inc`
assigns value `size-1` to each newly inserted key, the id of a name is its
position in the registration-ordered `id2sex` array. -/
def khash_str2int_get : List (List Char) → List Char → Option Nat
  | [], _ => none
  | x :: xs, s => if x = s then some 0 else (khash_str2int_get xs s).map (· + 1)

/-- Value of a nonempty digit run, read base 10. -/
def digitsToNat (ds : List Char) : Nat :=
  ds.foldl (fun a c => a * 10 + (c.toNat - 48)) 0

/-- Model of the numeric coordinate scan used by the external tabular parser:
skip whitespace, then read a nonempty digit run base 10, returning the value
and the rest of the line; `none` when no digits are found. -/
def parseNum (s : List Char) : Option (Int × List Char) :=
  let s1 := s.dropWhile isspace
  let ds := s1.takeWhile Char.isDigit
  if ds.isEmpty then none else some ((digitsToNat ds : Int), s1.dropWhile Char.isDigit)

/-- Whole-chromosome end coordinate used by the external parser when a line
holds only a chromosome name. -/
def MAX_COOR : Int := 4294967295

/-- Outcome of the external tabular parser: an accepted region or a C return
code (-1 skip the line, -2 malformed coordinates). -/
inductive TabOut where
  | ok (chr : List Char) (start stop : Int)
  | ret (code : Int)
deriving DecidableEq, Repr

/-- Model of the external `regidx_parse_tab` (a black box for this module, per
the spec): blank lines and `#` comments are skipped (-1); otherwise field 1 is
the chromosome name; fields 2 and 3 are numeric coordinates kept exactly as
parsed (inclusive); a malformed coordinate is the recoverable failure -2; a
line holding only a chromosome denotes the whole chromosome; a single
coordinate denotes a one-position region. -/
def regidx_parse_tab (line : List Char) : TabOut :=
  let ss := line.dropWhile isspace
  match ss with
  | [] => TabOut.ret (-1)
  | c :: _ =>
    if c = '#' then TabOut.ret (-1)
    else
      let chr := ss.takeWhile notspace
      let rest := ss.dropWhile notspace
      if rest.isEmpty then TabOut.ok chr 0 MAX_COOR
      else
        match parseNum rest with
        | none => TabOut.ret (-2)
        | some (b, rest2) =>
          match parseNum rest2 with
          | none => TabOut.ok chr b b
          | some (e, _) => TabOut.ok chr b e

/-- One iteration of the field-skipping loop of `ploidy_parse` (lines 59-64):
skip the current non-space run; at end of line the parse fails (-2), else skip
the following spaces. -/
def skipField (s : List Char) : Option (List Char) :=
  let s1 := s.dropWhile notspace
  if s1.isEmpty then none else some (s1.dropWhile isspace)

/-- The field-skipping loop of `ploidy_parse` iterated `n` times. -/
def skipNfields : Nat → List Char → Option (List Char)
  | 0, s => some s
  | n + 1, s =>
    match skipField s with
    | none => none
    | some r => skipNfields n r

/-- Model of C `strtol(ss, &se, 10)` as observed by `ploidy_parse`: `none`
when no conversion is performed (the `ss==se` check), otherwise the value of
an optional sign and a nonempty digit run after leading whitespace, trailing
content ignored. -/
def strtol10 (s : List Char) : Option Int :=
  let s1 := s.dropWhile isspace
  match s1 with
  | '-' :: r =>
    let ds := r.takeWhile Char.isDigit
    if ds.isEmpty then none else some (-(digitsToNat ds : Int))
  | '+' :: r =>
    let ds := r.takeWhile Char.isDigit
    if ds.isEmpty then none else some ((digitsToNat ds : Int))
  | _ =>
    let ds := s1.takeWhile Char.isDigit
    if ds.isEmpty then none else some ((digitsToNat ds : Int))

/-- C `ploidy_add_sex` (lines 204-212). The registration step inlined in
`ploidy_parse` (lines 75-81) duplicates exactly this lookup-or-append logic,
so the embedding shares the definition. Returns the updated table and the id
(`khash_str2int_inc` assigns `nsex-1`, the position of the appended name). -/
def ploidy_add_sex (p : ploidy_t) (sex : List Char) : ploidy_t × Nat :=
  match khash_str2int_get p.id2sex sex with
  | some id => (p, id)
  | none => ({ p with id2sex := p.id2sex ++ [sex] }, p.id2sex.length)

/-- Outcome of `ploidy_parse`: `ok` carries the updated table state and the
record handed to the index for insertion; `ret c` is a C `return c` (-1 skip,
-2 recoverable parse failure, both handed back to the loader); `fatal` models
`error(...)`, which prints the offending line and terminates the process. -/
inductive ParseOut where
  | ok (p : ploidy_t) (r : RegEntry)
  | ret (code : Int)
  | fatal
deriving DecidableEq, Repr

/-- C `ploidy_parse` (lines 47-92). -/
def ploidy_parse (p : ploidy_t) (line : List Char) : ParseOut :=
  match regidx_parse_tab line with
  | TabOut.ret code => ParseOut.ret code    -- line 54: if ( ret!=0 ) return ret
  | TabOut.ok chr rbeg rend =>
    match skipNfields 3 (line.dropWhile isspace) with    -- lines 57-64
    | none => ParseOut.ret (-2)             -- line 62: wrong number of fields
    | some ss =>
      if ss.isEmpty then ParseOut.ret (-2)  -- line 65
      else
        let tok := ss.takeWhile notspace    -- lines 68-69: the sex token [ss,se)
        let se := ss.dropWhile notspace
        if se.isEmpty || tok.isEmpty then ParseOut.fatal    -- line 70: error(...)
        else
          let reg := ploidy_add_sex p tok   -- lines 75-81
          if (se.dropWhile isspace).isEmpty then ParseOut.fatal  -- lines 84-85
          else
            match strtol10 se with          -- line 86
            | none => ParseOut.fatal        -- line 87: ss==se
            | some pl =>
              ParseOut.ok
                { reg.1 with
                  min := if pl < reg.1.min then pl else reg.1.min     -- line 88
                  max := if pl > reg.1.max then pl else reg.1.max }   -- line 89
                ⟨chr, rbeg, rend, ⟨reg.2, pl⟩⟩

/-- Result of a constructor: a table handle, the NULL handle, or process
termination through `error(...)` during loading. -/
inductive InitResult where
  | ok (p : ploidy_t)
  | null
  | aborted
deriving DecidableEq, Repr

/-- Model of the build loop of the external `regidx_init(fname,...)`: every
line of the file goes through the parse callback; 0 inserts the record, -1
skips the line, any other code makes the index build fail, which `ploidy_init`
(lines 102-106) turns into a NULL result; `error(...)` terminates the
process. -/
def regidx_build (p : ploidy_t) : List (List Char) → InitResult
  | [] => InitResult.ok p
  | l :: ls =>
    match ploidy_parse p l with
    | ParseOut.ok q r => regidx_build { q with regs := q.regs ++ [r] } ls
    | ParseOut.ret code => if code = -1 then regidx_build p ls else InitResult.null
    | ParseOut.fatal => InitResult.aborted

/-- C `ploidy_init` (lines 94-108), with the file contents given as its list
of lines. -/
def ploidy_init (lines : List (List Char)) (dflt : Int) : InitResult :=
  regidx_build (initPloidy dflt) lines

/-- The segment scan of `ploidy_init_string` (lines 120-131): skip whitespace,
take everything up to a CR/LF as one inserted line, and repeat; `acc` is the
current segment, reversed. A run of trailing whitespace yields at most an
empty inserted line, which the parse callback skips, so it is dropped here. -/
def splitSegsGo : List Char → List Char → List (List Char)
  | [], acc => if acc.isEmpty then [] else [acc.reverse]
  | c :: rest, acc =>
    if acc.isEmpty then
      if isspace c then splitSegsGo rest []
      else splitSegsGo rest [c]
    else
      if c = '\r' || c = '\n' then acc.reverse :: splitSegsGo rest []
      else splitSegsGo rest (c :: acc)

/-- Segments of a preset string, as inserted by `ploidy_init_string`. -/
def splitSegments (str : List Char) : List (List Char) := splitSegsGo str []

/-- The insertion loop of `ploidy_init_string` (lines 121-132): each segment
is fed to `regidx_insert`, whose return value is ignored, so a failed parse
drops the record and loading continues; only `error(...)` stops anything, by
terminating the process (`none`). -/
def insertString (p : ploidy_t) : List (List Char) → Option ploidy_t
  | [] => some p
  | l :: ls =>
    match ploidy_parse p l with
    | ParseOut.ok q r => insertString { q with regs := q.regs ++ [r] } ls
    | ParseOut.ret _ => insertString p ls
    | ParseOut.fatal => none

/-- C `ploidy_init_string` (lines 110-136). Unlike `ploidy_init` it never
inspects the index handle or any insertion result, so the only non-`ok`
outcome is process termination by `error(...)`. -/
def ploidy_init_string (str : List Char) (dflt : Int) : InitResult :=
  match insertString (initPloidy dflt) (splitSegments str) with
  | some p => InitResult.ok p
  | none => InitResult.aborted

/-- A sequence of individually successful record parses from a given state,
each inserting its record: the reachable-table relation of the spec
(construction followed by successful record parses). -/
def parseSeq (p : ploidy_t) : List (List Char) → Option ploidy_t
  | [] => some p
  | l :: ls =>
    match ploidy_parse p l with
    | ParseOut.ok q r => parseSeq { q with regs := q.regs ++ [r] } ls
    | _ => none

/-- The `INT_MAX` sentinel of `ploidy_query` (line 164). -/
def INT_MAX : Int := 2147483647

/-- Model of `regidx_overlap` plus the `REGITR_OVERLAP` walk (black box for
this module): every stored record of the chromosome containing the point, in
index order (insertion order for identical coordiantes), mapped to its
payload. -/
def overlapping (regs : List RegEntry) (seq : List Char) (pos : Int) : List sex_ploidy_t :=
  (regs.filter fun r =>
    decide (r.chr = seq) && decide (r.start ≤ pos) && decide (pos ≤ r.stop)).map RegEntry.payload

/-- One iteration of the reduction loop of `ploidy_query` (lines 167-178),
acting on the state (sex2ploidy vector, _min, _max). -/
def qstep (dflt : Int) (st : List Int × Int × Int) (sp : sex_ploidy_t) : List Int × Int × Int :=
  if sp.ploidy ≠ dflt then
    (st.1.set sp.sex sp.ploidy,
     if st.2.1 > sp.ploidy then sp.ploidy else st.2.1,
     if st.2.2 < sp.ploidy then sp.ploidy else st.2.2)
  else st

/-- Observable outputs of `ploidy_query`: the returned flag and the values
written through the three optional out-pointers (`none` when the pointer is
NULL). -/
structure QueryOut where
  found : Bool
  sex2ploidy : Option (List Int)
  min : Option Int
  max : Option Int
deriving DecidableEq, Repr

/-- C `ploidy_query` (lines 147-184); `wv`, `wm`, `wM` say whether the
`sex2ploidy`, `min` and `max` out-pointers are non-NULL. -/
def ploidy_query (p : ploidy_t) (seq : List Char) (pos : Int) (wv wm wM : Bool) : QueryOut :=
  let hits := overlapping p.regs seq pos
  if !wv && !wm && !wM then ⟨!hits.isEmpty, none, none, none⟩    -- line 152
  else if hits.isEmpty then    -- lines 154-162: no overlap
    ⟨false,
     if wv then some (List.replicate p.id2sex.length p.dflt) else none,
     if wm then some p.dflt else none,
     if wM then some p.dflt else none⟩
  else
    let st := hits.foldl (qstep p.dflt) (List.replicate p.id2sex.length p.dflt, INT_MAX, -1)
    let mM : Int × Int := if st.2.2 = -1 then (p.dflt, p.dflt) else (st.2.1, st.2.2)  -- line 179
    ⟨true,
     if wv then some st.1 else none,
     if wm then some mM.1 else none,
     if wM then some mM.2 else none⟩

/-- C `ploidy_nsex` (lines 186-189). -/
def ploidy_nsex (p : ploidy_t) : Nat := p.id2sex.length

/-- C `ploidy_id2sex` (lines 191-195); `none` is the NULL result. -/
def ploidy_id2sex (p : ploidy_t) (id : Nat) : Option (List Char) := p.id2sex.get? id

/-- C `ploidy_sex2id` (lines 197-202); -1 is the not-found sentinel. -/
def ploidy_sex2id (p : ploidy_t) (sex : List Char) : Int :=
  match khash_str2int_get p.id2sex sex with
  | some id => (id : Int)
  | none => -1

/-- C `ploidy_max` (lines 214-217). -/
def ploidy_max (p : ploidy_t) : Int := if p.dflt > p.max then p.dflt else p.max

/-- C `ploidy_min` (lines 219-222). -/
def ploidy_min (p : ploidy_t) : Int := if p.dflt < p.min then p.dflt else p.min

/-- Number of nonempty whitespace-delimited tokens on a line (`inTok` is true
while scanning inside a token), used to state the wrong-number-of-fields
condition of the spec. -/
def ntokensGo : List Char → Bool → Nat
  | [], _ => 0
  | c :: r, inTok =>
    if isspace c then ntokensGo r false
    else (if inTok then 0 else 1) + ntokensGo r true

/-- Number of nonempty whitespace-delimited tokens on a line. -/
def ntokens (s : List Char) : Nat := ntokensGo s false

/-- Line of spec Scenario A: one non-default record. -/
def linA : List Char := "chr1 100 200 M 1".data

/-- Table built from `linA` with default ploidy 2. -/
def tblA : ploidy_t := ⟨2, 1, 2, ["M".data], [⟨"chr1".data, 100, 200, ⟨0, 1⟩⟩]⟩

/-- A record whose ploidy equals the default. -/
def linD : List Char := "chr1 100 200 M 2".data

/-- Table built from `linD` with default ploidy 2. -/
def tblD : ploidy_t := ⟨2, 2, 2, ["M".data], [⟨"chr1".data, 100, 200, ⟨0, 2⟩⟩]⟩

/-- Table built from `linA` then `linD` with default ploidy 2: two records for
the same sex on the same region, a non-default one first. -/
def tblC1 : ploidy_t :=
  ⟨2, 1, 2, ["M".data],
   [⟨"chr1".data, 100, 200, ⟨0, 1⟩⟩, ⟨"chr1".data, 100, 200, ⟨0, 2⟩⟩]⟩

/-- First line of spec Scenario B. -/
def linB1 : List Char := "chrX 0 155270560 M 1".data

/-- Second line of spec Scenario B. -/
def linB2 : List Char := "chrX 0 155270560 F 2".data

/-- Table of spec Scenario B: default 2, `chrX 0 155270560 M 1` and
`chrX 0 155270560 F 2`. -/
def tblB : ploidy_t :=
  ⟨2, 1, 2, ["M".data, "F".data],
   [⟨"chrX".data, 0, 155270560, ⟨0, 1⟩⟩, ⟨"chrX".data, 0, 155270560, ⟨1, 2⟩⟩]⟩

/-- A line with malformed coordinates: the external tabular parser rejects it
with -2. -/
def linBad : List Char := "chr1 xyz 200 M 1".data

/-- Table state and record produced by parsing `linD` from a fresh table. -/
def pW : ploidy_t := ⟨2, 2, 2, ["M".data], []⟩

/-- Record produced by parsing `linD` from a fresh table. -/
def rW : RegEntry := ⟨"chr1".data, 100, 200, ⟨0, 2⟩⟩

/-! Helper lemmas about the arithmetic and list operations of the embedding. -/

/-- The C idiom `x < m ? x : m` computes the minimum. -/
theorem ite_min (m v : Int) : (if v < m then v else m) = min m v := by
  rw [min_def]; split <;> split <;> omega

/-- The C idiom `x > m ? x : m` computes the maximum. -/
theorem ite_max (m v : Int) : (if v > m then v else m) = max m v := by
  rw [max_def]; split <;> split <;> omega

/-- Every in-range cell of a replicated vector holds the replicated value. -/
theorem get?_replicate {α : Type} (a : α) (n i : Nat) (h : i < n) :
    (List.replicate n a).get? i = some a := by
  induction n generalizing i with
  | zero => omega
  | succ n ih =>
    cases i with
    | zero => rfl
    | succ j => simpa [List.replicate_succ] using ih j (by omega)

/-- Writing one cell leaves every other cell unchanged. -/
theorem get?_set_of_ne {α : Type} (l : List α) (i j : Nat) (a : α) (h : i ≠ j) :
    (l.set i a).get? j = l.get? j := by
  induction l generalizing i j with
  | nil => simp [List.set]
  | cons x xs ih =>
    cases i with
    | zero =>
      cases j with
      | zero => exact absurd rfl h
      | succ k => rfl
    | succ i2 =>
      cases j with
      | zero => rfl
      | succ k => exact ih i2 k (fun e => h (by omega))

/-- The khash lookup fails exactly on unregistered names. -/
theorem khget_none_iff (l : List (List Char)) (a : List Char) :
    khash_str2int_get l a = none ↔ a ∉ l := by
  induction l with
  | nil => simp [khash_str2int_get]
  | cons x xs ih =>
    by_cases hx : x = a
    · subst hx; simp [khash_str2int_get]
    · have hmap : (khash_str2int_get xs a).map (· + 1) = none ↔ khash_str2int_get xs a = none := by
        cases khash_str2int_get xs a <;> simp
      simp [khash_str2int_get, hx, hmap, ih, Ne.symm hx]

/-- Looking up a freshly appended name yields its position. -/
theorem khget_append_self (l : List (List Char)) (a : List Char) (h : a ∉ l) :
    khash_str2int_get (l ++ [a]) a = some l.length := by
  induction l with
  | nil => simp [khash_str2int_get]
  | cons x xs ih =>
    have hx : ¬(x = a) := fun e => h (by simp [e])
    have hxs : a ∉ xs := fun hm => h (List.mem_cons_of_mem _ hm)
    simp [khash_str2int_get, hx, ih hxs]

/-- The first character surviving a `dropWhile` falsifies the predicate. -/
theorem dropWhile_head_false {α : Type} (q : α → Bool) (l : List α) (c : α) (r : List α)
    (h : l.dropWhile q = c :: r) : q c = false := by
  induction l with
  | nil => cases h
  | cons x xs ih =>
    by_cases hq : q x
    · rw [List.dropWhile_cons_of_pos hq] at h
      exact ih h
    · rw [List.dropWhile_cons_of_neg hq] at h
      cases h
      simpa using hq

/-- Leading whitespace does not change the token count. -/
theorem ntokensGo_dropWhile_isspace (s : List Char) :
    ntokensGo (s.dropWhile isspace) false = ntokensGo s false := by
  induction s with
  | nil => rfl
  | cons c r ih =>
    by_cases hc : isspace c
    · rw [List.dropWhile_cons_of_pos hc, ih]
      simp [ntokensGo, hc]
    · rw [List.dropWhile_cons_of_neg hc]

/-- Counting from inside a token equals counting after dropping that token. -/
theorem ntokensGo_true_dropWhile (s : List Char) :
    ntokensGo s true = ntokens (s.dropWhile notspace) := by
  induction s with
  | nil => rfl
  | cons c r ih =>
    by_cases hc : isspace c
    · have hns : notspace c = false := by simp [notspace, hc]
      rw [List.dropWhile_cons_of_neg (by simp [hns])]
      simp [ntokens, ntokensGo, hc]
    · have hns : notspace c = true := by simp [notspace, hc]
      rw [List.dropWhile_cons_of_pos hns]
      simp only [ntokensGo, if_neg hc, if_pos rfl]
      simpa using ih

/-- A line with no tokens is whitespace only. -/
theorem ntokens_zero_dropWhile (s : List Char) (h : ntokens s = 0) :
    s.dropWhile isspace = [] := by
  induction s with
  | nil => rfl
  | cons c r ih =>
    by_cases hc : isspace c
    · rw [List.dropWhile_cons_of_pos hc]
      exact ih (by simpa [ntokens, ntokensGo, hc] using h)
    · exfalso
      simp [ntokens, ntokensGo, hc] at h

/-- Skipping `n` fields over a line with at most `n` tokens either hits the
in-loop end-of-line check or ends exactly at the end of the line. -/
theorem skipNfields_short (n : Nat) (s : List Char) (h : ntokens s ≤ n) :
    skipNfields n (s.dropWhile isspace) = none ∨
      skipNfields n (s.dropWhile isspace) = some [] := by
  induction n generalizing s with
  | zero =>
    right
    rw [ntokens_zero_dropWhile s (Nat.le_zero.mp h)]
    rfl
  | succ n ih =>
    cases hdw : s.dropWhile isspace with
    | nil =>
      left
      simp [skipNfields, skipField]
    | cons c r =>
      have hc : isspace c = false := dropWhile_head_false isspace s c r hdw
      have hns : notspace c = true := by simp [notspace, hc]
      have hcount : ntokens s = 1 + ntokens (r.dropWhile notspace) := by
        rw [ntokens, ← ntokensGo_dropWhile_isspace s, hdw]
        simp only [ntokensGo, hc, if_neg (by simp [hc] : ¬ isspace c = true),
          if_neg (Bool.false_ne_true)]
        rw [ntokensGo_true_dropWhile]
      cases hu : r.dropWhile notspace with
      | nil =>
        left
        simp [skipNfields, skipField, List.dropWhile_cons_of_pos hns, hu]
      | cons u us =>
        have hstep : skipNfields (n + 1) (c :: r) = skipNfields n ((u :: us).dropWhile isspace) := by
          simp [skipNfields, skipField, List.dropWhile_cons_of_pos hns, hu]
        rw [hstep]
        apply ih
        rw [hcount, hu] at h
        omega

/-- Records whose ploidy equals the default leave the whole reduction state of
`ploidy_query` untouched. -/
theorem foldl_qstep_id (dflt : Int) (hits : List sex_ploidy_t) (st : List Int × Int × Int)
    (h : ∀ sp ∈ hits, sp.ploidy = dflt) :
    hits.foldl (qstep dflt) st = st := by
  induction hits generalizing st with
  | nil => rfl
  | cons sp rest ih =>
    have hsp : sp.ploidy = dflt := h sp (List.mem_cons_self sp rest)
    rw [List.foldl_cons, show qstep dflt st sp = st by simp [qstep, hsp]]
    exact ih st (fun x hx => h x (List.mem_cons_of_mem _ hx))

/-- Invariant of the reduction loop: the running max still holds its -1
sentinel, or the running min is at most the running max. -/
theorem foldl_qstep_minmax (dflt : Int) (hits : List sex_ploidy_t) (st : List Int × Int × Int)
    (h : st.2.2 = -1 ∨ st.2.1 ≤ st.2.2) :
    (hits.foldl (qstep dflt) st).2.2 = -1 ∨
      (hits.foldl (qstep dflt) st).2.1 ≤ (hits.foldl (qstep dflt) st).2.2 := by
  induction hits generalizing st with
  | nil => exact h
  | cons sp rest ih =>
    rw [List.foldl_cons]
    apply ih
    obtain ⟨vec, m, M⟩ := st
    simp only [qstep]
    split
    · rcases h with h | h <;> (simp only [] at h ⊢; split <;> split <;> omega)
    · exact h

/-- A vector slot whose sex category is touched only by default-ploidy records
keeps its value through the reduction loop. -/
theorem foldl_qstep_slot (dflt : Int) (s : Nat) (hits : List sex_ploidy_t)
    (st : List Int × Int × Int) (hst : st.1.get? s = some dflt)
    (h : ∀ sp ∈ hits, sp.sex = s → sp.ploidy = dflt) :
    (hits.foldl (qstep dflt) st).1.get? s = some dflt := by
  induction hits generalizing st with
  | nil => exact hst
  | cons sp rest ih =>
    rw [List.foldl_cons]
    apply ih
    · unfold qstep
      split
      · next hpl =>
        have hsex : sp.sex ≠ s := fun he => hpl (h sp (List.mem_cons_self sp rest) he)
        show (st.1.set sp.sex sp.ploidy).get? s = some dflt
        rw [get?_set_of_ne _ _ _ _ hsex]
        exact hst
      · exact hst
    · exact fun x hx hxs => h x (List.mem_cons_of_mem _ hx) hxs

/-- Inversion of a successful `ploidy_parse`: the default is untouched and the
running bounds are folded with the parsed ploidy, unconditionally. -/
theorem parse_ok_fields (p : ploidy_t) (line : List Char) (q : ploidy_t) (r : RegEntry)
    (h : ploidy_parse p line = ParseOut.ok q r) :
    q.dflt = p.dflt ∧ q.min = min p.min r.payload.ploidy ∧ q.max = max p.max r.payload.ploidy := by
  simp only [ploidy_parse] at h
  split at h
  · exact absurd h (by simp)
  · split at h
    · exact absurd h (by simp)
    · split at h
      · exact absurd h (by simp)
      · split at h
        · exact absurd h (by simp)
        · split at h
          · exact absurd h (by simp)
          · split at h
            · exact absurd h (by simp)
            · next pl hpl =>
              injection h with hq hr
              subst hq
              subst hr
              refine ⟨?_, ?_, ?_⟩ <;> unfold ploidy_add_sex <;> split <;>
                simp [ite_min, ite_max]

/-- A sequence of successful parses never changes the construction default. -/
theorem parseSeq_dflt (lines : List (List Char)) (p q : ploidy_t)
    (h : parseSeq p lines = some q) : q.dflt = p.dflt := by
  induction lines generalizing p with
  | nil =>
    simp only [parseSeq, Option.some.injEq] at h
    rw [← h]
  | cons l ls ih =>
    simp only [parseSeq] at h
    split at h
    · next q2 r heq =>
      have hd := ih _ h
      rw [hd]
      exact (parse_ok_fields p l q2 r heq).1
    · exact absurd h (by simp)

/-! Claim C1. -/

/-- C1 counterexample: with default 2 and two same-sex records on the same
region, ploidy 1 inserted before ploidy 2, the point query's last-considered
applicable record for sex 0 has ploidy equal to the default, yet the vector
slot holds 1, not the default: a default-ploidy record does not overwrite an
earlier non-default write, so the claim as stated is false. -/
theorem C1_counterexample :
    ploidy_init [linA, linD] 2 = InitResult.ok tblC1 ∧
    (overlapping tblC1.regs "chr1".data 150).map (fun sp => (sp.sex, sp.ploidy))
      = [(0, 1), (0, 2)] ∧
    tblC1.dflt = 2 ∧
    (ploidy_query tblC1 "chr1".data 150 true true true).sex2ploidy = some [1] ∧
    (1 : Int) ≠ 2 := by
  refine ⟨by decide, by decide, by decide, by decide, by decide⟩

/-- C1 (amended): during a point query with at least one overlapping record,
a record whose ploidy equals default_ploidy never writes to the per-sex
vector; consequently a sex slot holds default_ploidy whenever every
overlapping record for that sex category has ploidy equal to
default_ploidy. -/
theorem C1_amended_thm (p : ploidy_t) (seq : List Char) (pos : Int) (s : Nat) (wm wM : Bool)
    (hs : s < ploidy_nsex p)
    (hne : overlapping p.regs seq pos ≠ [])
    (hall : ∀ sp ∈ overlapping p.regs seq pos, sp.sex = s → sp.ploidy = p.dflt) :
    ∃ v : List Int, (ploidy_query p seq pos true wm wM).sex2ploidy = some v ∧
      v.get? s = some p.dflt := by
  cases hL : overlapping p.regs seq pos with
  | nil => exact absurd hL hne
  | cons a as =>
    have hslot := foldl_qstep_slot p.dflt s (a :: as)
      (List.replicate p.id2sex.length p.dflt, INT_MAX, (-1 : Int))
      (get?_replicate p.dflt p.id2sex.length s hs) (hL ▸ hall)
    exact ⟨_, by simp [ploidy_query, hL], hslot⟩

/-- C1 witness: single default-equal record for sex 0 at the queried point;
the slot holds the default. -/
theorem C1_amended_witness :
    ∃ v : List Int, (ploidy_query tblD "chr1".data 150 true true true).sex2ploidy = some v ∧
      v.get? 0 = some tblD.dflt :=
  C1_amended_thm tblD "chr1".data 150 0 true true (by decide) (by decide) (by decide)

/-! Claim C2. -/

/-- C2 counterexample: the line `chr1 100 200` is accepted by the tabular
parser and has only 3 tokens; `ploidy_parse` returns the code -2 to the
loader instead of taking the fatal `error(...)` path, so the claim as stated
is false. -/
theorem C2_counterexample :
    regidx_parse_tab "chr1 100 200".data = TabOut.ok "chr1".data 100 200 ∧
    ntokens "chr1 100 200".data = 3 ∧
    ploidy_parse (initPloidy 2) "chr1 100 200".data = ParseOut.ret (-2) ∧
    ParseOut.ret (-2) ≠ ParseOut.fatal := by
  refine ⟨by decide, by decide, by decide, by decide⟩

/-- C2 (amended): for every input line whose coordinate fields are accepted
by the external tabular parser but which has fewer than 4 nonempty
whitespace-delimited tokens, `ploidy_parse` returns the recoverable
wrong-number-of-fields code -2 to the loader (the same signalling path as
malformed coordinates, with no message), rather than aborting fatally. -/
theorem C2_amended_thm (p : ploidy_t) (line chr : List Char) (b e : Int)
    (htab : regidx_parse_tab line = TabOut.ok chr b e)
    (htok : ntokens line < 4) :
    ploidy_parse p line = ParseOut.ret (-2) := by
  unfold ploidy_parse
  simp only [htab]
  rcases skipNfields_short 3 line (by omega) with h | h <;> simp [h]

/-- C2 witness: the 3-token line `chr1 100 200` parsed from a fresh table. -/
theorem C2_amended_witness :
    ploidy_parse (initPloidy 2) "chr1 100 200".data = ParseOut.ret (-2) :=
  C2_amended_thm (initPloidy 2) "chr1 100 200".data "chr1".data 100 200 (by decide) (by decide)

/-! Claim C3. -/

/-- C3: for every table and every (chromosome, position) with no overlapping
stored interval, the query returns found = false, writes default_ploidy to
the min and max outputs when they are requested, and fills all
`ploidy_nsex` slots of the per-sex vector with default_ploidy when it is
requested. -/
theorem C3_no_overlap (p : ploidy_t) (seq : List Char) (pos : Int) (wv wm wM : Bool)
    (h : overlapping p.regs seq pos = []) :
    (ploidy_query p seq pos wv wm wM).found = false ∧
    (wm = true → (ploidy_query p seq pos wv wm wM).min = some p.dflt) ∧
    (wM = true → (ploidy_query p seq pos wv wm wM).max = some p.dflt) ∧
    (wv = true → (ploidy_query p seq pos wv wm wM).sex2ploidy
        = some (List.replicate (ploidy_nsex p) p.dflt)) := by
  cases wv <;> cases wm <;> cases wM <;>
    simp [ploidy_query, h, ploidy_nsex]

/-- C3 witness: Scenario A table queried at chr1:300, outside its region. -/
theorem C3_no_overlap_witness :
    (ploidy_query tblA "chr1".data 300 true true true).found = false ∧
    (true = true → (ploidy_query tblA "chr1".data 300 true true true).min = some tblA.dflt) ∧
    (true = true → (ploidy_query tblA "chr1".data 300 true true true).max = some tblA.dflt) ∧
    (true = true → (ploidy_query tblA "chr1".data 300 true true true).sex2ploidy
        = some (List.replicate (ploidy_nsex tblA) tblA.dflt)) :=
  C3_no_overlap tblA "chr1".data 300 true true true (by decide)

/-! Claim C4. -/

/-- C4: for every point query where at least one stored interval overlaps but
every overlapping record's ploidy equals default_ploidy (all record ploidies
nonnegative), the query returns found = true with both requested bound
outputs equal to default_ploidy: no record updates the running bounds, so the
-1 sentinel collapses both to the default. -/
theorem C4_all_default_overlap (p : ploidy_t) (seq : List Char) (pos : Int) (wv : Bool)
    (hne : overlapping p.regs seq pos ≠ [])
    (hall : ∀ sp ∈ overlapping p.regs seq pos, sp.ploidy = p.dflt)
    (hnn : ∀ sp ∈ overlapping p.regs seq pos, 0 ≤ sp.ploidy) :
    (ploidy_query p seq pos wv true true).found = true ∧
    (ploidy_query p seq pos wv true true).min = some p.dflt ∧
    (ploidy_query p seq pos wv true true).max = some p.dflt := by
  cases hL : overlapping p.regs seq pos with
  | nil => exact absurd hL hne
  | cons a as =>
    have hall2 : ∀ sp ∈ a :: as, sp.ploidy = p.dflt := hL ▸ hall
    have hfold := foldl_qstep_id p.dflt (a :: as)
      (List.replicate p.id2sex.length p.dflt, INT_MAX, (-1 : Int)) hall2
    rw [List.foldl_cons] at hfold
    cases wv <;> simp [ploidy_query, hL, hfold]

/-- C4 witness: one overlapping record whose ploidy equals the default 2. -/
theorem C4_all_default_overlap_witness :
    (ploidy_query tblD "chr1".data 150 true true true).found = true ∧
    (ploidy_query tblD "chr1".data 150 true true true).min = some tblD.dflt ∧
    (ploidy_query tblD "chr1".data 150 true true true).max = some tblD.dflt :=
  C4_all_default_overlap tblD "chr1".data 150 true (by decide) (by decide) (by decide)

/-! Claim C5. -/

/-- C5: for every table state reachable by construction followed by a
sequence of successful record parses, `ploidy_min` returns
min(default, observed min) and `ploidy_max` returns max(default, observed
max); hence `ploidy_min` is at most `ploidy_max`, and with zero records both
return exactly the construction default. -/
theorem C5_minmax_accessors (dflt : Int) (lines : List (List Char)) (p : ploidy_t)
    (h : parseSeq (initPloidy dflt) lines = some p) :
    ploidy_min p = min p.dflt p.min ∧ ploidy_max p = max p.dflt p.max ∧
    p.dflt = dflt ∧ ploidy_min p ≤ ploidy_max p ∧
    (lines = [] → ploidy_min p = dflt ∧ ploidy_max p = dflt) := by
  have h1 : ploidy_min p = min p.dflt p.min := by
    unfold ploidy_min; rw [min_def]; split <;> split <;> omega
  have h2 : ploidy_max p = max p.dflt p.max := by
    unfold ploidy_max; rw [max_def]; split <;> split <;> omega
  have h3 : p.dflt = dflt := parseSeq_dflt lines (initPloidy dflt) p h
  refine ⟨h1, h2, h3, ?_, ?_⟩
  · rw [h1, h2]
    exact le_trans (min_le_left _ _) (le_max_left _ _)
  · rintro rfl
    simp only [parseSeq, Option.some.injEq] at h
    rw [← h]
    constructor <;> simp [ploidy_min, ploidy_max, initPloidy]

/-- C5 witness: the Scenario A table reached by one successful parse. -/
theorem C5_minmax_accessors_witness :
    ploidy_min tblA = min tblA.dflt tblA.min ∧
    ploidy_max tblA = max tblA.dflt tblA.max ∧
    tblA.dflt = 2 ∧ ploidy_min tblA ≤ ploidy_max tblA ∧
    ([linA] = ([] : List (List Char)) → ploidy_min tblA = 2 ∧ ploidy_max tblA = 2) :=
  C5_minmax_accessors 2 [linA] tblA (by decide)

/-! Claim C6. -/

/-- C6: every successfully parsed record with ploidy value v updates the
table's observed bounds to min(observed min, v) and max(observed max, v),
unconditionally, in particular also when v equals the default (unlike the
query-time reduction, which skips default-equal records). -/
theorem C6_parse_updates_bounds (p : ploidy_t) (line : List Char) (q : ploidy_t) (r : RegEntry)
    (h : ploidy_parse p line = ParseOut.ok q r) :
    q.min = min p.min r.payload.ploidy ∧ q.max = max p.max r.payload.ploidy :=
  ⟨(parse_ok_fields p line q r h).2.1, (parse_ok_fields p line q r h).2.2⟩

/-- C6 witness: parsing a record whose ploidy 2 equals the default 2 still
folds the bounds with 2. -/
theorem C6_parse_updates_bounds_witness :
    pW.min = min (initPloidy 2).min rW.payload.ploidy ∧
    pW.max = max (initPloidy 2).max rW.payload.ploidy :=
  C6_parse_updates_bounds (initPloidy 2) linD pW rW (by decide)

/-! Claim C7. -/

/-- C7 counterexample: in Scenario B (default 2, records `chrX 0 155270560 M
1` and `chrX 0 155270560 F 2`), the query at chrX:5000 writes 1 to the max
output, not 2 as the claim states: the F record's ploidy equals the default,
so it is skipped by the bound tracking. -/
theorem C7_counterexample :
    ploidy_init [linB1, linB2] 2 = InitResult.ok tblB ∧
    (ploidy_query tblB "chrX".data 5000 true true true).max = some 1 ∧
    some (1 : Int) ≠ some (2 : Int) := by
  refine ⟨by decide, by decide, by decide⟩

/-- C7 (amended): for the Scenario B table (default 2, M registered as id 0
and F as id 1 in that order), the query at chrX:5000 returns found = true,
vector [1, 2], min = 1 and max = 1 (the F record's ploidy equals the default
and is skipped by bound tracking), and a query on chr1, with no stored
regions, returns the vector [2, 2]. -/
theorem C7_amended_thm :
    ploidy_init [linB1, linB2] 2 = InitResult.ok tblB ∧
    ploidy_sex2id tblB "M".data = 0 ∧
    ploidy_sex2id tblB "F".data = 1 ∧
    ploidy_query tblB "chrX".data 5000 true true true
      = ⟨true, some [1, 2], some 1, some 1⟩ ∧
    (ploidy_query tblB "chr1".data 5000 true true true).sex2ploidy = some [2, 2] := by
  refine ⟨by decide, by decide, by decide, by decide, by decide⟩

/-! Claim C8. -/

/-- C8: `ploidy_add_sex` is idempotent: a second call with the same name
returns the same id, leaves the table (hence `ploidy_nsex`) unchanged and
performs no mutation; and `ploidy_sex2id` returns the -1 sentinel for every
name never registered. -/
theorem C8_add_sex_idempotent (p : ploidy_t) (name other : List Char)
    (h : other ∉ p.id2sex) :
    (ploidy_add_sex (ploidy_add_sex p name).1 name).2 = (ploidy_add_sex p name).2 ∧
    (ploidy_add_sex (ploidy_add_sex p name).1 name).1 = (ploidy_add_sex p name).1 ∧
    ploidy_nsex (ploidy_add_sex (ploidy_add_sex p name).1 name).1
      = ploidy_nsex (ploidy_add_sex p name).1 ∧
    ploidy_sex2id p other = -1 := by
  have hlast : ploidy_sex2id p other = -1 := by
    unfold ploidy_sex2id
    rw [(khget_none_iff _ _).mpr h]
  cases hk : khash_str2int_get p.id2sex name with
  | some id => simp [ploidy_add_sex, hk, hlast]
  | none =>
    have hnm : name ∉ p.id2sex := (khget_none_iff _ _).mp hk
    simp [ploidy_add_sex, hk, khget_append_self p.id2sex name hnm, hlast]

/-- C8 witness: registering M twice on a fresh table; F was never
registered. -/
theorem C8_add_sex_idempotent_witness :
    (ploidy_add_sex (ploidy_add_sex (initPloidy 2) "M".data).1 "M".data).2
      = (ploidy_add_sex (initPloidy 2) "M".data).2 ∧
    (ploidy_add_sex (ploidy_add_sex (initPloidy 2) "M".data).1 "M".data).1
      = (ploidy_add_sex (initPloidy 2) "M".data).1 ∧
    ploidy_nsex (ploidy_add_sex (ploidy_add_sex (initPloidy 2) "M".data).1 "M".data).1
      = ploidy_nsex (ploidy_add_sex (initPloidy 2) "M".data).1 ∧
    ploidy_sex2id (initPloidy 2) "F".data = -1 :=
  C8_add_sex_idempotent (initPloidy 2) "M".data "F".data (by decide)

/-! Claim C9. -/

/-- C9: construction from a preset string never returns the NULL handle: it
ignores every insertion result, so a malformed-coordinate line (such as
`chr1 xyz 200 M 1`) leaves a usable table, while the same line makes the
file-based constructor return NULL. -/
theorem C9_init_string_never_null :
    (∀ (str : List Char) (dflt : Int), ploidy_init_string str dflt ≠ InitResult.null) ∧
    ploidy_init [linBad] 2 = InitResult.null ∧
    ploidy_init_string linBad 2 = InitResult.ok (initPloidy 2) := by
  refine ⟨?_, by decide, by decide⟩
  intro str dflt
  unfold ploidy_init_string
  cases insertString (initPloidy dflt) (splitSegments str) <;> simp

/-! Claim C10. -/

/-- C10: whenever both bound outputs are requested, the value written to the
min output is at most the value written to the max output, for every table,
chromosome and position and any record ploidies. -/
theorem C10_min_le_max (p : ploidy_t) (seq : List Char) (pos : Int) (wv : Bool) :
    ∃ m M : Int, (ploidy_query p seq pos wv true true).min = some m ∧
      (ploidy_query p seq pos wv true true).max = some M ∧ m ≤ M := by
  cases hL : overlapping p.regs seq pos with
  | nil =>
    refine ⟨p.dflt, p.dflt, ?_, ?_, le_refl _⟩ <;> cases wv <;> simp [ploidy_query, hL]
  | cons a as =>
    have hinv := foldl_qstep_minmax p.dflt (a :: as)
      (List.replicate p.id2sex.length p.dflt, INT_MAX, (-1 : Int)) (Or.inl rfl)
    rw [List.foldl_cons] at hinv
    by_cases hm1 : (as.foldl (qstep p.dflt)
        (qstep p.dflt (List.replicate p.id2sex.length p.dflt, INT_MAX, (-1 : Int)) a)).2.2 = -1
    · refine ⟨p.dflt, p.dflt, ?_, ?_, le_refl _⟩ <;> cases wv <;>
        simp [ploidy_query, hL, hm1]
    · have hle := hinv.resolve_left hm1
      refine ⟨(as.foldl (qstep p.dflt)
          (qstep p.dflt (List.replicate p.id2sex.length p.dflt, INT_MAX, (-1 : Int)) a)).2.1,
        (as.foldl (qstep p.dflt)
          (qstep p.dflt (List.replicate p.id2sex.length p.dflt, INT_MAX, (-1 : Int)) a)).2.2,
        ?_, ?_, hle⟩ <;> cases wv <;>
        simp [ploidy_query, hL, hm1]
